import Mathlib

/-!
Verification of the playback-coordination core of a tag-driven audio player
(`src/server.py`).  The server keeps a live tag-to-file mapping (a Python
dict), a background polling loop (`_player`) that holds a reference to that
dict, a list of spawned external player processes, a shared `current_track`
cell and an indicator LED.  Control-plane handlers mutate the mapping,
stop playback, or stop/restart the loop.

The embedding is a small-step transition system over `ServerState`.  Python
reference semantics for the mapping dict are modelled explicitly: the loop
either aliases the live mapping (`localAliased = true`) or holds a frozen
copy (after `delete_file` rebinds the global to a fresh dict).  Every spawned
external process is recorded in `procs` with an `alive` flag; the loop's
`current_process` is an index into that list.  Process teardown
(`terminate`/`wait(timeout)`/`kill`) is modelled as leaving the process
dead, and the monitor join inside an iteration as completing; the 2-second
`playback_thread.join` in `_stop_playback_thread`, however, can time out in
the source (the loop sleeps up to 5 seconds at a stretch), so its outcome is
an explicit parameter: a timed-out join leaves the old loop thread alive,
and the next `stop_playback.clear()` revives it.
-/

/-- One external audio-player invocation (`subprocess.Popen(["mpg123", ...])`). -/
structure MediaProcess where
  filename : String
  alive : Bool
deriving DecidableEq

/-- The local state of one run of `_player`: whether `local_mapping` still
aliases the global `tag_mapping` dict, the frozen contents otherwise, the
index of `current_process` in the global process list, `current_file`, and
whether the `_monitor_playback` thread is alive. -/
structure LoopState where
  localAliased : Bool
  localFrozen : List (String × String)
  currentProcess : Option Nat
  currentFile : Option String
  monitorAlive : Bool
deriving DecidableEq

/-- Global server state: the live `tag_mapping` dict contents, the persisted
mapping file, all spawned player processes, the alive `_player` loop threads
(head is the `playback_thread` global), the shared `stop_playback` event,
the shared `current_track` cell and the LED level. -/
structure ServerState where
  tagMapping : List (String × String)
  mappingFile : List (String × String)
  procs : List MediaProcess
  loops : List LoopState
  stopEvent : Bool
  currentTrack : Option String
  led : Bool
deriving DecidableEq

/-- Result of a socketio handler: a success payload, an error payload, or an
uncaught exception propagating out of the handler. -/
inductive OpResult where
  | ok : OpResult
  | err : OpResult
  | exn : OpResult
deriving DecidableEq

/-- `dict.get`: first value bound to the key. -/
def lookupTag : List (String × String) → String → Option String
  | [], _ => none
  | (k0, v0) :: rest, k => if k0 = k then some v0 else lookupTag rest k

/-- `dict[k] = v`: update in place if the key exists, else append. -/
def insertTag : List (String × String) → String → String → List (String × String)
  | [], k, v => [(k, v)]
  | (k0, v0) :: rest, k, v =>
    if k0 = k then (k0, v) :: rest else (k0, v0) :: insertTag rest k v

/-- `del dict[k]`. -/
def eraseTag : List (String × String) → String → List (String × String)
  | [], _ => []
  | (k0, v0) :: rest, k =>
    if k0 = k then eraseTag rest k else (k0, v0) :: eraseTag rest k

/-- The dict comprehension in `handle_delete_file`: keep entries whose value
is not the deleted filename. -/
def stripFile (m : List (String × String)) (f : String) : List (String × String) :=
  m.filter fun e => !(e.2 == f)

/-- Index of the last '.' in a character list, if any. -/
def lastDotIdx : List Char → Option Nat
  | [] => none
  | c :: cs =>
    match lastDotIdx cs with
    | some i => some (i + 1)
    | none => if c = '.' then some 0 else none

/-- `Path(filename).stem`: the name with its last suffix removed.  A suffix
exists when the last dot is neither the first nor the last character. -/
def stem (f : String) : String :=
  let cs := f.toList
  match lastDotIdx cs with
  | none => f
  | some i => if 0 < i ∧ i < cs.length - 1 then String.mk (cs.take i) else f

/-- Whether the process at index `j` is alive (`poll() is None`). -/
def aliveAt (ps : List MediaProcess) (j : Nat) : Bool :=
  match ps.get? j with
  | some p => p.alive
  | none => false

/-- Whether any spawned process is still alive. -/
def anyAlive (ps : List MediaProcess) : Bool :=
  ps.any fun p => p.alive

/-- Terminate the process at index `j` (graceful signal, bounded wait,
forced kill on timeout; the process ends up dead either way). -/
def killProcAt : List MediaProcess → Nat → List MediaProcess
  | [], _ => []
  | p :: ps, 0 => { p with alive := false } :: ps
  | p :: ps, j + 1 => p :: killProcAt ps j

/-- `if current_process and current_process.poll() is None: terminate ...`. -/
def killCurrent (ps : List MediaProcess) (cp : Option Nat) : List MediaProcess :=
  match cp with
  | some j => killProcAt ps j
  | none => ps

/-- `pkill -9 mpg123`: every spawned player process dies. -/
def killAll : List MediaProcess → List MediaProcess
  | [] => []
  | p :: ps => { p with alive := false } :: killAll ps

/-- The mapping the loop resolves against: the live dict while aliased,
its frozen copy after `delete_file` rebinds the global. -/
def loopMapping (s : ServerState) (l : LoopState) : List (String × String) :=
  if l.localAliased then s.tagMapping else l.localFrozen

/-- `local_mapping.get(str(tag_id))` inside `_player`. -/
def resolveTag (s : ServerState) (l : LoopState) (tagId : String) : Option String :=
  lookupTag (loopMapping s l) tagId

/-- The loop state created by `_start_playback_thread`: `local_mapping`
aliases the live dict, no process, no current file, no monitor. -/
def freshLoop : LoopState :=
  { localAliased := true
    localFrozen := []
    currentProcess := none
    currentFile := none
    monitorAlive := false }

/-- When `handle_delete_file` rebinds the global dict, a loop that aliased it
keeps the old object: it becomes frozen at the pre-rebind contents `m`. -/
def freezeLoop (m : List (String × String)) (l : LoopState) : LoopState :=
  if l.localAliased then { l with localAliased := false, localFrozen := m } else l

/-- `_start_playback_thread`: clear the shared stop event and start a new
`_player` thread bound to the live dict.  No already-running check is made;
any previously started loop keeps running. -/
def startPlaybackThread (s : ServerState) : ServerState :=
  { s with loops := freshLoop :: s.loops, stopEvent := false }

/-- The `finally` block of `_player` at loop index `i`: terminate its current
process if alive, join its monitor, clear `current_track`, turn the LED off,
and let the thread exit. -/
def finalizeLoop (s : ServerState) (i : Nat) : ServerState :=
  match s.loops.get? i with
  | none => s
  | some l =>
    { s with
        procs := killCurrent s.procs l.currentProcess
        loops := s.loops.eraseIdx i
        currentTrack := none
        led := false }

/-- `_stop_playback_thread`: if the `playback_thread` global is alive,
`pkill -9 mpg123` — at this granularity every live completion watcher
observes the death and runs its callback (track cleared, LED off) — then set
the stop event and join the thread with a 2-second timeout.  `joinOk = true`
models the join completing: the thread runs its `finally` block and exits.
`joinOk = false` models the join timing out, which the source ignores
silently; this happens whenever `_player` is inside a sleep longer than the
timeout, such as its initial 5-second startup sleep, and the old loop thread
then survives with only the stop event set. -/
def stopPlaybackThread (s : ServerState) (joinOk : Bool) : ServerState :=
  match s.loops with
  | [] => s
  | _ :: _ =>
    if joinOk then
      finalizeLoop { s with procs := killAll s.procs, stopEvent := true } 0
    else
      { s with
          procs := killAll s.procs
          stopEvent := true
          currentTrack := none
          led := false }

/-- The new-track branch of one `_player` iteration: terminate the current
process if alive, join the monitor, set `current_file` and `current_track`,
turn the LED on, spawn `mpg123` for the file, and start a fresh monitor. -/
def spawnPlayback (s : ServerState) (i : Nat) (l : LoopState) (filename : String) :
    ServerState :=
  let procs1 := killCurrent s.procs l.currentProcess
  { s with
      procs := procs1 ++ [{ filename := filename, alive := true }]
      currentTrack := some (stem filename)
      led := true
      loops := s.loops.set i
        { l with
            currentProcess := some procs1.length
            currentFile := some filename
            monitorAlive := true } }

/-- One iteration of the `while not stop_playback.is_set()` body of `_player`
at loop index `i`, given the result of `read_id_no_block` (`none` models a
falsy read).  An unmapped or falsy filename flashes the error pattern (the
LED ends low), clears `current_track` and continues; a filename equal to
`current_file` is skipped; otherwise playback transitions to the new file. -/
def loopIter (s : ServerState) (i : Nat) (l : LoopState) : Option String → ServerState
  | none => s
  | some tagId =>
    match resolveTag s l tagId with
    | none => { s with currentTrack := none, led := false }
    | some filename =>
      if filename = "" then { s with currentTrack := none, led := false }
      else if l.currentFile = some filename then s
      else spawnPlayback s i l filename

/-- `_monitor_playback` observing the exit of the process it watches (index
`j`, watched by the monitor of loop `i`): the process is no longer alive,
`current_track` is cleared, the LED turned off, and the monitor thread ends. -/
def monitorFire (s : ServerState) (i : Nat) (l : LoopState) (j : Nat) : ServerState :=
  { s with
      procs := killProcAt s.procs j
      currentTrack := none
      led := false
      loops := s.loops.set i { l with monitorAlive := false } }

/-- `handle_stop_playback`: `pkill -9 mpg123`, clear `current_track`, LED off.
The loop threads and the stop event are untouched. -/
def handle_stop_playback (s : ServerState) : ServerState :=
  { s with procs := killAll s.procs, currentTrack := none, led := false }

/-- `handle_register_tag`: reject a falsy audio file; otherwise stop the
loop (`joinOk` is the outcome of the bounded join: on a timeout the old loop
thread survives), flash the scanning pattern, perform the blocking tag read
(`none` models a raised read error, caught by the handler), insert the
entry, save the mapping (`saveOk = false` models a raised write error,
caught by the handler), and restart the loop on success — the restart's
`stop_playback.clear()` also revives a loop whose join timed out. -/
def handle_register_tag (s : ServerState) (audioFile : String)
    (readResult : Option String) (saveOk joinOk : Bool) : ServerState × OpResult :=
  if audioFile = "" then (s, OpResult.err)
  else
    let s1 := { stopPlaybackThread s joinOk with led := false }
    match readResult with
    | none => ({ s1 with led := false }, OpResult.err)
    | some tagId =>
      let s2 := { s1 with tagMapping := insertTag s1.tagMapping tagId audioFile }
      if saveOk then
        (startPlaybackThread { s2 with mappingFile := s2.tagMapping }, OpResult.ok)
      else
        ({ s2 with led := false }, OpResult.err)

/-- `handle_unregister_tag`: reject a falsy tag id; if the tag is mapped,
delete the entry in place and save (a raised write error propagates out of
the handler, there is no try/except); otherwise report "Tag not found".
The loop is never stopped or restarted. -/
def handle_unregister_tag (s : ServerState) (tagId : String) (saveOk : Bool) :
    ServerState × OpResult :=
  if tagId = "" then (s, OpResult.err)
  else if (lookupTag s.tagMapping tagId).isSome then
    let s1 := { s with tagMapping := eraseTag s.tagMapping tagId }
    if saveOk then ({ s1 with mappingFile := s1.tagMapping }, OpResult.ok)
    else (s1, OpResult.exn)
  else (s, OpResult.err)

/-- `handle_delete_file`: reject a falsy filename; `removeOk = false` models
`os.remove` raising (caught, nothing changed).  Otherwise the global dict is
rebound to a fresh stripped dict (freezing any aliased loop), then saved;
a raised write error is caught and reported.  The loop is never restarted. -/
def handle_delete_file (s : ServerState) (filename : String)
    (removeOk saveOk : Bool) : ServerState × OpResult :=
  if filename = "" then (s, OpResult.err)
  else if removeOk then
    let s1 := { s with
        loops := s.loops.map (freezeLoop s.tagMapping)
        tagMapping := stripFile s.tagMapping filename }
    if saveOk then ({ s1 with mappingFile := s1.tagMapping }, OpResult.ok)
    else (s1, OpResult.err)
  else (s, OpResult.err)

/-- `level = max(0, min(100, level))` in `_set_volume`. -/
def clampVolume (level : Int) : Int := max 0 (min 100 level)

/-- `25 + ((level - 1) * (90 - 25) / 99) if level > 0 else 0`: the value
passed to `amixer set PCM`. -/
def remapVolume (level : Int) : Rat :=
  if 0 < level then 25 + (((level : Rat) - 1) * (90 - 25)) / 99 else 0

/-- `_set_volume`: clamp, remap the clamped value for the mixer, and return
the clamped level.  The pair is (returned level, mixer argument). -/
def applySetVolume (level : Int) : Int × Rat :=
  let clamped := clampVolume level
  (clamped, remapVolume clamped)

/-- `main`: load the mapping from the file and start the playback thread. -/
def initState (m0 : List (String × String)) : ServerState :=
  startPlaybackThread
    { tagMapping := m0
      mappingFile := m0
      procs := []
      loops := []
      stopEvent := false
      currentTrack := none
      led := false }

/-- Small-step transition relation: loop iterations, monitor completions,
loop-thread exits on a set stop event, and the control-plane handlers. -/
inductive Step : ServerState → ServerState → Prop
  | iter : ∀ (s : ServerState) (i : Nat) (l : LoopState) (scan : Option String),
      s.loops.get? i = some l → s.stopEvent = false → Step s (loopIter s i l scan)
  | monitorStep : ∀ (s : ServerState) (i : Nat) (l : LoopState) (j : Nat),
      s.loops.get? i = some l → l.currentProcess = some j →
      l.monitorAlive = true → Step s (monitorFire s i l j)
  | loopExit : ∀ (s : ServerState) (i : Nat),
      i < s.loops.length → s.stopEvent = true → Step s (finalizeLoop s i)
  | registerOp : ∀ (s : ServerState) (audioFile : String)
      (readResult : Option String) (saveOk joinOk : Bool),
      Step s (handle_register_tag s audioFile readResult saveOk joinOk).1
  | unregisterOp : ∀ (s : ServerState) (tagId : String) (saveOk : Bool),
      Step s (handle_unregister_tag s tagId saveOk).1
  | deleteOp : ∀ (s : ServerState) (filename : String) (removeOk saveOk : Bool),
      Step s (handle_delete_file s filename removeOk saveOk).1
  | stopOp : ∀ (s : ServerState), Step s (handle_stop_playback s)

/-- States reachable from a boot with persisted mapping `m0`. -/
def Reachable (m0 : List (String × String)) (s : ServerState) : Prop :=
  Relation.ReflTransGen Step (initState m0) s

/-- Inductive invariant: every alive process is the current process of one
of the running loops, every loop's recorded process index is in range, and a
non-null `current_track` implies a live process. -/
def ServerInv (s : ServerState) : Prop :=
  (∀ j, aliveAt s.procs j = true →
    ∃ i l, s.loops.get? i = some l ∧ l.currentProcess = some j) ∧
  (∀ i l j, s.loops.get? i = some l → l.currentProcess = some j →
    j < s.procs.length) ∧
  (s.currentTrack.isSome = true → anyAlive s.procs = true)

/-- At most one external player process is alive. -/
def AtMostOneAlive (s : ServerState) : Prop :=
  ∀ j1 j2, aliveAt s.procs j1 = true → aliveAt s.procs j2 = true → j1 = j2

/-- Whenever an iteration transitions to a new resolved track, every process
that existed before the iteration is dead in the post-state: the prior
process is fully terminated before the new one is spawned. -/
def SpawnKillsPrior (s : ServerState) : Prop :=
  ∀ (i : Nat) (l : LoopState) (tagId filename : String),
    s.loops.get? i = some l →
    resolveTag s l tagId = some filename → filename ≠ "" →
    l.currentFile ≠ some filename →
    ∀ j, j < s.procs.length →
      aliveAt (loopIter s i l (some tagId)).procs j = false

/-- Every live process is owned by some running loop as its current process:
the per-loop single-process discipline that survives double-loop states. -/
def AliveOwnedByLoop (s : ServerState) : Prop :=
  ∀ j, aliveAt s.procs j = true →
    ∃ i l, s.loops.get? i = some l ∧ l.currentProcess = some j

/-- A loop that transitions to a new resolved track leaves its own prior
process dead in the post-state: it terminates it, and joins its watcher,
inside the same iteration, before spawning the new one. -/
def SpawnKillsOwnPrior (s : ServerState) : Prop :=
  ∀ (i : Nat) (l : LoopState) (tagId filename : String) (jprev : Nat),
    s.loops.get? i = some l →
    resolveTag s l tagId = some filename → filename ≠ "" →
    l.currentFile ≠ some filename →
    l.currentProcess = some jprev →
    aliveAt (loopIter s i l (some tagId)).procs jprev = false

/-- Demonstration mapping from the spec's Scenario A. -/
def demoMap : List (String × String) := [("123456789012", "song.mp3")]

/-- Boot state of the demonstration run. -/
def st0 : ServerState := initState demoMap

/-- After scanning the mapped tag: `song.mp3` is playing. -/
def st1 : ServerState := loopIter st0 0 freshLoop (some "123456789012")

/-- The loop state inside `st1`. -/
def l1 : LoopState :=
  { localAliased := true
    localFrozen := []
    currentProcess := some 0
    currentFile := some "song.mp3"
    monitorAlive := true }

/-- After scanning an unknown tag while `song.mp3` plays (Scenario B). -/
def st2 : ServerState := loopIter st1 0 l1 (some "000000000000")

/-- A register issued while the old loop is inside its 5-second startup
sleep: the 2-second join times out, and the restart's event clear revives
the old loop — two loop threads now run concurrently. -/
def st3 : ServerState :=
  (handle_register_tag st0 "other.mp3" (some "999") true false).1

/-- The revived old loop (index 1) scans the first tag and spawns its own
player process. -/
def st4 : ServerState := loopIter st3 1 freshLoop (some "123456789012")

/-- The new loop (index 0) scans the freshly registered tag and spawns a
second player process: two external players are now alive at once. -/
def st5 : ServerState := loopIter st4 0 freshLoop (some "999")

/-- `List.get?` on the empty list is always `none`. -/
lemma getq_nil {α : Type} (i : Nat) : ([] : List α).get? i = none := by
  cases i <;> rfl

/-- `get?` commutes with `map`. -/
lemma getq_map {α β : Type} (f : α → β) :
    ∀ (xs : List α) (i : Nat), (xs.map f).get? i = (xs.get? i).map f := by
  intro xs
  induction xs with
  | nil => intro i; cases i <;> rfl
  | cons x tl ih =>
    intro i
    cases i with
    | zero => rfl
    | succ k => exact ih k

/-- In a list of length at most one, a successful lookup pins the index to 0
and the list to a singleton. -/
lemma get_of_le_one {α : Type} {xs : List α} {i : Nat} {a : α}
    (hlen : xs.length ≤ 1) (hget : xs.get? i = some a) : i = 0 ∧ xs = [a] := by
  cases xs with
  | nil => rw [getq_nil] at hget; cases hget
  | cons x tl =>
    cases tl with
    | nil =>
      cases i with
      | zero =>
        refine ⟨rfl, ?_⟩
        have hx : x = a := by
          have : some x = some a := hget
          exact Option.some.inj this
        rw [hx]
      | succ k =>
        have : ([] : List α).get? k = some a := hget
        rw [getq_nil] at this; cases this
    | cons y tl2 =>
      exfalso
      simp [List.length_cons] at hlen

/-- Writing index `i` then reading it back. -/
lemma get_set_self {α : Type} :
    ∀ (xs : List α) (i : Nat) (a b : α),
      xs.get? i = some b → (xs.set i a).get? i = some a := by
  intro xs
  induction xs with
  | nil => intro i a b h; rw [getq_nil] at h; cases h
  | cons x tl ih =>
    intro i a b h
    cases i with
    | zero => rfl
    | succ k => exact ih k a b h

/-- Writing one index leaves all other lookups unchanged. -/
lemma get_set_ne {α : Type} :
    ∀ (xs : List α) (i i2 : Nat) (a : α), i2 ≠ i →
      (xs.set i a).get? i2 = xs.get? i2 := by
  intro xs
  induction xs with
  | nil => intro i i2 a h; rfl
  | cons x tl ih =>
    intro i i2 a h
    cases i with
    | zero =>
      cases i2 with
      | zero => exact absurd rfl h
      | succ k => rfl
    | succ m =>
      cases i2 with
      | zero => rfl
      | succ k => exact ih m k a (by omega)

/-- A successful lookup index is within the length. -/
lemma lt_of_getq_some {α : Type} :
    ∀ {xs : List α} {i : Nat} {a : α}, xs.get? i = some a → i < xs.length := by
  intro xs
  induction xs with
  | nil => intro i a h; rw [getq_nil] at h; cases h
  | cons x tl ih =>
    intro i a h
    cases i with
    | zero => exact Nat.succ_pos tl.length
    | succ k => exact Nat.succ_lt_succ (ih h)

/-- Erasing a later index preserves earlier lookups. -/
lemma get_eraseIdx_lt {α : Type} :
    ∀ (xs : List α) (i i2 : Nat), i2 < i →
      (xs.eraseIdx i).get? i2 = xs.get? i2 := by
  intro xs
  induction xs with
  | nil => intro i i2 h; rfl
  | cons x tl ih =>
    intro i i2 h
    cases i with
    | zero => exact absurd h (Nat.not_lt_zero i2)
    | succ m =>
      cases i2 with
      | zero => rfl
      | succ k => exact ih m k (by omega)

/-- Erasing an earlier index shifts later lookups down by one. -/
lemma get_eraseIdx_ge {α : Type} :
    ∀ (xs : List α) (i i2 : Nat), i ≤ i2 →
      (xs.eraseIdx i).get? i2 = xs.get? (i2 + 1) := by
  intro xs
  induction xs with
  | nil =>
    intro i i2 h
    rw [show (([] : List α).eraseIdx i) = [] from rfl, getq_nil, getq_nil]
  | cons x tl ih =>
    intro i i2 h
    cases i with
    | zero => rfl
    | succ m =>
      cases i2 with
      | zero => exact absurd h (by omega)
      | succ k => exact ih m k (by omega)

/-- `pkill` does not change the number of processes. -/
lemma killAll_length : ∀ (ps : List MediaProcess), (killAll ps).length = ps.length := by
  intro ps
  induction ps with
  | nil => rfl
  | cons p tl ih => simp [killAll, List.length_cons, ih]

/-- No process is alive in the empty list. -/
lemma aliveAt_nil (j : Nat) : aliveAt [] j = false := by
  cases j <;> rfl

/-- `aliveAt` steps through a cons cell. -/
lemma aliveAt_cons_succ (p : MediaProcess) (ps : List MediaProcess) (k : Nat) :
    aliveAt (p :: ps) (k + 1) = aliveAt ps k := rfl

/-- Terminating one process does not change the number of processes. -/
lemma killProcAt_length :
    ∀ (ps : List MediaProcess) (j : Nat), (killProcAt ps j).length = ps.length := by
  intro ps
  induction ps with
  | nil => intro j; rfl
  | cons p tl ih =>
    intro j
    cases j with
    | zero => rfl
    | succ k => simp [killProcAt, List.length_cons, ih k]

/-- Liveness after terminating the process at index `j`. -/
lemma aliveAt_killProcAt :
    ∀ (ps : List MediaProcess) (j jq : Nat),
      aliveAt (killProcAt ps j) jq = if jq = j then false else aliveAt ps jq := by
  intro ps
  induction ps with
  | nil =>
    intro j jq
    rw [show killProcAt [] j = [] from rfl, aliveAt_nil]
    split <;> rfl
  | cons p tl ih =>
    intro j jq
    cases j with
    | zero =>
      cases jq with
      | zero => simp [killProcAt, aliveAt]
      | succ k => simp [killProcAt, aliveAt_cons_succ]
    | succ m =>
      cases jq with
      | zero => simp [killProcAt, aliveAt]
      | succ k =>
        rw [show killProcAt (p :: tl) (m + 1) = p :: killProcAt tl m from rfl,
          aliveAt_cons_succ, aliveAt_cons_succ, ih m k]
        by_cases hkm : k = m
        · simp [hkm]
        · rw [if_neg hkm, if_neg (by omega : ¬ k + 1 = m + 1)]

/-- Terminating the current process (if any) only removes liveness. -/
lemma aliveAt_killCurrent {ps : List MediaProcess} {cp : Option Nat} {j : Nat}
    (h : aliveAt (killCurrent ps cp) j = true) :
    aliveAt ps j = true ∧ cp ≠ some j := by
  cases cp with
  | none => exact ⟨h, by simp⟩
  | some j0 =>
    rw [show killCurrent ps (some j0) = killProcAt ps j0 from rfl,
      aliveAt_killProcAt] at h
    by_cases hj : j = j0
    · rw [if_pos hj] at h; cases h
    · rw [if_neg hj] at h
      refine ⟨h, ?_⟩
      intro hc
      exact hj (Option.some.inj hc).symm

/-- `killCurrent` preserves the number of processes. -/
lemma killCurrent_length (ps : List MediaProcess) (cp : Option Nat) :
    (killCurrent ps cp).length = ps.length := by
  cases cp with
  | none => rfl
  | some j => exact killProcAt_length ps j

/-- Liveness in a list with one process appended. -/
lemma aliveAt_append_one :
    ∀ (ps : List MediaProcess) (p : MediaProcess) (j : Nat),
      aliveAt (ps ++ [p]) j = if j = ps.length then p.alive else aliveAt ps j := by
  intro ps
  induction ps with
  | nil =>
    intro p j
    cases j with
    | zero => simp [aliveAt]
    | succ k => simp [aliveAt_cons_succ, aliveAt_nil]
  | cons q tl ih =>
    intro p j
    cases j with
    | zero => simp [aliveAt]
    | succ k =>
      rw [show (q :: tl) ++ [p] = q :: (tl ++ [p]) from rfl, aliveAt_cons_succ,
        aliveAt_cons_succ, ih p k]
      by_cases hk : k = tl.length
      · simp [hk]
      · rw [if_neg hk, if_neg (by simp [List.length_cons]; omega : ¬ k + 1 = (q :: tl).length)]

/-- After `pkill`, no process is alive at any index. -/
lemma aliveAt_killAll : ∀ (ps : List MediaProcess) (j : Nat), aliveAt (killAll ps) j = false := by
  intro ps
  induction ps with
  | nil => intro j; exact aliveAt_nil j
  | cons p tl ih =>
    intro j
    cases j with
    | zero => rfl
    | succ k => exact ih k

/-- After `pkill`, `anyAlive` is false. -/
lemma anyAlive_killAll : ∀ (ps : List MediaProcess), anyAlive (killAll ps) = false := by
  intro ps
  induction ps with
  | nil => rfl
  | cons p tl ih => simpa [killAll, anyAlive, List.any_cons] using ih

/-- `anyAlive` over an appended singleton. -/
lemma anyAlive_append_one (ps : List MediaProcess) (p : MediaProcess) :
    anyAlive (ps ++ [p]) = (anyAlive ps || p.alive) := by
  simp [anyAlive, List.any_append]

/-- A true `anyAlive` yields a live index. -/
lemma exists_alive_of_anyAlive :
    ∀ {ps : List MediaProcess}, anyAlive ps = true → ∃ j, aliveAt ps j = true := by
  intro ps
  induction ps with
  | nil => intro h; simp [anyAlive] at h
  | cons p tl ih =>
    intro h
    rw [anyAlive, List.any_cons] at h
    rcases Bool.or_eq_true_iff.mp h with hp | htl
    · exact ⟨0, hp⟩
    · obtain ⟨j, hj⟩ := ih htl
      exact ⟨j + 1, by rw [aliveAt_cons_succ]; exact hj⟩

/-- An absent tag: loop iteration clears the track and leaves the LED low. -/
lemma loopIter_unmapped (s : ServerState) (i : Nat) (l : LoopState) (tagId : String)
    (h : resolveTag s l tagId = none) :
    loopIter s i l (some tagId) = { s with currentTrack := none, led := false } := by
  simp only [loopIter]
  rw [h]

/-- A falsy (empty) resolved filename behaves like an unmapped tag. -/
lemma loopIter_falsy (s : ServerState) (i : Nat) (l : LoopState) (tagId f : String)
    (h : resolveTag s l tagId = some f) (hf : f = "") :
    loopIter s i l (some tagId) = { s with currentTrack := none, led := false } := by
  simp only [loopIter]
  rw [h]
  simp [hf]

/-- Scanning the file already playing is skipped: the state is unchanged. -/
lemma loopIter_same (s : ServerState) (i : Nat) (l : LoopState) (tagId f : String)
    (h : resolveTag s l tagId = some f) (hf : f ≠ "") (hc : l.currentFile = some f) :
    loopIter s i l (some tagId) = s := by
  simp only [loopIter]
  rw [h]
  simp [hf, hc]

/-- A new resolved file transitions playback. -/
lemma loopIter_spawn (s : ServerState) (i : Nat) (l : LoopState) (tagId f : String)
    (h : resolveTag s l tagId = some f) (hf : f ≠ "") (hc : l.currentFile ≠ some f) :
    loopIter s i l (some tagId) = spawnPlayback s i l f := by
  simp only [loopIter]
  rw [h]
  simp [hf, hc]

/-- `freezeLoop` does not touch the loop's process bookkeeping. -/
lemma freezeLoop_currentProcess (m : List (String × String)) (l : LoopState) :
    (freezeLoop m l).currentProcess = l.currentProcess := by
  unfold freezeLoop; split <;> rfl

/-- `freezeLoop` does not touch the loop's current file. -/
lemma freezeLoop_currentFile (m : List (String × String)) (l : LoopState) :
    (freezeLoop m l).currentFile = l.currentFile := by
  unfold freezeLoop; split <;> rfl

/-- A `pkill` followed by an individual terminate leaves nothing alive. -/
lemma aliveAt_killCurrent_killAll (ps : List MediaProcess) (cp : Option Nat) (j : Nat) :
    aliveAt (killCurrent (killAll ps) cp) j = false := by
  cases cp with
  | none => exact aliveAt_killAll ps j
  | some j0 =>
    rw [show killCurrent (killAll ps) (some j0) = killProcAt (killAll ps) j0 from rfl,
      aliveAt_killProcAt]
    split
    · rfl
    · exact aliveAt_killAll ps j

/-- The invariant only depends on the processes, loops and track cell. -/
lemma inv_of_same_core {s t : ServerState} (hs : ServerInv s)
    (hp : t.procs = s.procs) (hl : t.loops = s.loops)
    (ht : t.currentTrack = s.currentTrack) : ServerInv t := by
  obtain ⟨h1, h2, h3⟩ := hs
  refine ⟨?_, ?_, ?_⟩
  · intro j hj
    rw [hp] at hj
    obtain ⟨i2, l2, hl2, hcp⟩ := h1 j hj
    exact ⟨i2, l2, by rw [hl]; exact hl2, hcp⟩
  · intro i2 l2 j hgl hcp
    rw [hl] at hgl
    rw [hp]
    exact h2 i2 l2 j hgl hcp
  · intro h
    rw [ht] at h
    rw [hp]
    exact h3 h

/-- After `_stop_playback_thread` no player process is alive: either the
`pkill` ran, or no loop existed and the invariant says nothing was alive. -/
lemma stopPlaybackThread_no_alive {s : ServerState} (hs : ServerInv s)
    (joinOk : Bool) :
    ∀ j, aliveAt (stopPlaybackThread s joinOk).procs j = false := by
  obtain ⟨hown, _, _⟩ := hs
  intro j
  cases hlp : s.loops with
  | nil =>
    have hst : stopPlaybackThread s joinOk = s := by
      unfold stopPlaybackThread; rw [hlp]
    rw [hst]
    cases hA : aliveAt s.procs j
    · rfl
    · obtain ⟨i2, l2, hl2, _⟩ := hown j hA
      rw [hlp, getq_nil] at hl2
      cases hl2
  | cons l0 rest =>
    unfold stopPlaybackThread
    rw [hlp]
    cases joinOk with
    | true => exact aliveAt_killCurrent_killAll s.procs l0.currentProcess j
    | false => exact aliveAt_killAll s.procs j

/-- After `_stop_playback_thread` the track cell is empty. -/
lemma stopPlaybackThread_track {s : ServerState} (hs : ServerInv s)
    (joinOk : Bool) :
    (stopPlaybackThread s joinOk).currentTrack.isSome = false := by
  obtain ⟨hown, _, htrack⟩ := hs
  cases hlp : s.loops with
  | nil =>
    have hst : stopPlaybackThread s joinOk = s := by
      unfold stopPlaybackThread; rw [hlp]
    rw [hst]
    cases hT : s.currentTrack.isSome
    · rfl
    · obtain ⟨j, hj⟩ := exists_alive_of_anyAlive (htrack hT)
      obtain ⟨i2, l2, hl2, _⟩ := hown j hj
      rw [hlp, getq_nil] at hl2
      cases hl2
  | cons l0 rest =>
    unfold stopPlaybackThread
    rw [hlp]
    cases joinOk with
    | true => rfl
    | false => rfl

/-- `_stop_playback_thread` preserves the invariant for either join outcome. -/
lemma inv_stopPlaybackThread {s : ServerState} (hs : ServerInv s) (joinOk : Bool) :
    ServerInv (stopPlaybackThread s joinOk) := by
  obtain ⟨hown, hvalid, htrack⟩ := hs
  refine ⟨?_, ?_, ?_⟩
  · intro j hj
    rw [stopPlaybackThread_no_alive ⟨hown, hvalid, htrack⟩ joinOk j] at hj
    cases hj
  · cases hlp : s.loops with
    | nil =>
      have hst : stopPlaybackThread s joinOk = s := by
        unfold stopPlaybackThread; rw [hlp]
      rw [hst]
      exact hvalid
    | cons l0 rest =>
      cases joinOk with
      | true =>
        have hst : stopPlaybackThread s true =
            { s with
                procs := killCurrent (killAll s.procs) l0.currentProcess
                loops := rest
                stopEvent := true
                currentTrack := none
                led := false } := by
          unfold stopPlaybackThread
          rw [hlp]
          rfl
        rw [hst]
        intro i2 l2 j hgl hcp
        have hgl2 : rest.get? i2 = some l2 := hgl
        have hgl3 : s.loops.get? (i2 + 1) = some l2 := by
          rw [hlp]
          exact hgl2
        have hlt := hvalid (i2 + 1) l2 j hgl3 hcp
        show j < (killCurrent (killAll s.procs) l0.currentProcess).length
        rw [killCurrent_length, killAll_length]
        exact hlt
      | false =>
        have hst : stopPlaybackThread s false =
            { s with
                procs := killAll s.procs
                stopEvent := true
                currentTrack := none
                led := false } := by
          unfold stopPlaybackThread
          rw [hlp]
          rfl
        rw [hst]
        intro i2 l2 j hgl hcp
        have hgl2 : s.loops.get? i2 = some l2 := hgl
        have hlt := hvalid i2 l2 j hgl2 hcp
        show j < (killAll s.procs).length
        rw [killAll_length]
        exact hlt
  · intro h
    rw [stopPlaybackThread_track ⟨hown, hvalid, htrack⟩ joinOk] at h
    cases h

/-- The spawn branch establishes the invariant. -/
lemma inv_spawnPlayback {s : ServerState} {i : Nat} {l : LoopState}
    (hs : ServerInv s) (hl : s.loops.get? i = some l) (f : String) :
    ServerInv (spawnPlayback s i l f) := by
  obtain ⟨hown, hvalid, _⟩ := hs
  refine ⟨?_, ?_, ?_⟩
  · intro j hj
    rw [show (spawnPlayback s i l f).procs =
        killCurrent s.procs l.currentProcess ++ [{ filename := f, alive := true }]
        from rfl,
      aliveAt_append_one] at hj
    by_cases hjl : j = (killCurrent s.procs l.currentProcess).length
    · refine ⟨i, { l with
          currentProcess := some (killCurrent s.procs l.currentProcess).length
          currentFile := some f
          monitorAlive := true }, ?_, ?_⟩
      · show (s.loops.set i _).get? i = some _
        exact get_set_self s.loops i _ l hl
      · rw [hjl]
    · rw [if_neg hjl] at hj
      obtain ⟨hal, hne⟩ := aliveAt_killCurrent hj
      obtain ⟨i2, l2, hl2, hcp⟩ := hown j hal
      by_cases hii : i2 = i
      · exfalso
        rw [hii, hl] at hl2
        have hll : l = l2 := Option.some.inj hl2
        rw [← hll] at hcp
        exact hne hcp
      · refine ⟨i2, l2, ?_, hcp⟩
        show (s.loops.set i _).get? i2 = some l2
        rw [get_set_ne s.loops i i2 _ hii]
        exact hl2
  · intro i2 l2 j hgl hcp
    have hlen2 : (spawnPlayback s i l f).procs.length = s.procs.length + 1 := by
      rw [show (spawnPlayback s i l f).procs =
          killCurrent s.procs l.currentProcess ++ [{ filename := f, alive := true }]
          from rfl,
        List.length_append, killCurrent_length]
      rfl
    rw [hlen2]
    by_cases hii : i2 = i
    · have hset : (s.loops.set i { l with
          currentProcess := some (killCurrent s.procs l.currentProcess).length
          currentFile := some f
          monitorAlive := true }).get? i
          = some { l with
              currentProcess := some (killCurrent s.procs l.currentProcess).length
              currentFile := some f
              monitorAlive := true } := get_set_self s.loops i _ l hl
      have hgl2 : (s.loops.set i { l with
          currentProcess := some (killCurrent s.procs l.currentProcess).length
          currentFile := some f
          monitorAlive := true }).get? i2 = some l2 := hgl
      rw [hii, hset] at hgl2
      have hl2n : { l with
          currentProcess := some (killCurrent s.procs l.currentProcess).length
          currentFile := some f
          monitorAlive := true } = l2 := Option.some.inj hgl2
      rw [← hl2n] at hcp
      have hsj : some (killCurrent s.procs l.currentProcess).length = some j := hcp
      have hj2 : (killCurrent s.procs l.currentProcess).length = j :=
        Option.some.inj hsj
      rw [killCurrent_length] at hj2
      omega
    · have hgl2 : (s.loops.set i { l with
          currentProcess := some (killCurrent s.procs l.currentProcess).length
          currentFile := some f
          monitorAlive := true }).get? i2 = some l2 := hgl
      rw [get_set_ne s.loops i i2 _ hii] at hgl2
      have := hvalid i2 l2 j hgl2 hcp
      omega
  · intro _
    rw [show (spawnPlayback s i l f).procs =
        killCurrent s.procs l.currentProcess ++ [{ filename := f, alive := true }]
        from rfl,
      anyAlive_append_one]
    simp

/-- One loop iteration preserves the invariant. -/
lemma inv_loopIter {s : ServerState} (hs : ServerInv s) (i : Nat) (l : LoopState)
    (scan : Option String) (hl : s.loops.get? i = some l) :
    ServerInv (loopIter s i l scan) := by
  cases scan with
  | none => exact hs
  | some tagId =>
    cases hres : resolveTag s l tagId with
    | none =>
      rw [loopIter_unmapped s i l tagId hres]
      exact ⟨hs.1, hs.2.1, fun h => Bool.noConfusion h⟩
    | some f =>
      by_cases hf : f = ""
      · rw [loopIter_falsy s i l tagId f hres hf]
        exact ⟨hs.1, hs.2.1, fun h => Bool.noConfusion h⟩
      · by_cases hc : l.currentFile = some f
        · rw [loopIter_same s i l tagId f hres hf hc]
          exact hs
        · rw [loopIter_spawn s i l tagId f hres hf hc]
          exact inv_spawnPlayback hs hl f

/-- A monitor completion preserves the invariant. -/
lemma inv_monitorFire {s : ServerState} (hs : ServerInv s) (i : Nat) (l : LoopState)
    (j : Nat) (hl : s.loops.get? i = some l) :
    ServerInv (monitorFire s i l j) := by
  obtain ⟨hown, hvalid, _⟩ := hs
  refine ⟨?_, ?_, fun h => Bool.noConfusion h⟩
  · intro jq hjq
    rw [show (monitorFire s i l j).procs = killProcAt s.procs j from rfl,
      aliveAt_killProcAt] at hjq
    by_cases hq : jq = j
    · rw [if_pos hq] at hjq
      cases hjq
    · rw [if_neg hq] at hjq
      obtain ⟨i2, l2, hl2, hcp⟩ := hown jq hjq
      by_cases hii : i2 = i
      · refine ⟨i, { l with monitorAlive := false }, ?_, ?_⟩
        · show (s.loops.set i _).get? i = some _
          exact get_set_self s.loops i _ l hl
        · rw [hii, hl] at hl2
          have hll : l = l2 := Option.some.inj hl2
          show l.currentProcess = some jq
          rw [hll]
          exact hcp
      · refine ⟨i2, l2, ?_, hcp⟩
        show (s.loops.set i _).get? i2 = some l2
        rw [get_set_ne s.loops i i2 _ hii]
        exact hl2
  · intro i2 l2 jq hgl hcp
    have hgl2 : (s.loops.set i { l with monitorAlive := false }).get? i2
        = some l2 := hgl
    show jq < (killProcAt s.procs j).length
    rw [killProcAt_length]
    by_cases hii : i2 = i
    · have hset := get_set_self s.loops i { l with monitorAlive := false } l hl
      rw [hii, hset] at hgl2
      have hll : { l with monitorAlive := false } = l2 := Option.some.inj hgl2
      rw [← hll] at hcp
      have hcp2 : l.currentProcess = some jq := hcp
      exact hvalid i l jq hl hcp2
    · rw [get_set_ne s.loops i i2 _ hii] at hgl2
      exact hvalid i2 l2 jq hgl2 hcp

/-- A loop-thread exit preserves the invariant. -/
lemma inv_finalizeLoop {s : ServerState} (hs : ServerInv s) (i : Nat) :
    ServerInv (finalizeLoop s i) := by
  obtain ⟨hown, hvalid, htrack⟩ := hs
  cases hgl : s.loops.get? i with
  | none =>
    have hfin : finalizeLoop s i = s := by
      unfold finalizeLoop; rw [hgl]
    rw [hfin]
    exact ⟨hown, hvalid, htrack⟩
  | some l =>
    have hfin : finalizeLoop s i =
        { s with
            procs := killCurrent s.procs l.currentProcess
            loops := s.loops.eraseIdx i
            currentTrack := none
            led := false } := by
      unfold finalizeLoop; rw [hgl]
    rw [hfin]
    refine ⟨?_, ?_, fun h => Bool.noConfusion h⟩
    · intro j hj
      obtain ⟨hal, hne⟩ := aliveAt_killCurrent hj
      obtain ⟨i2, l2, hl2, hcp⟩ := hown j hal
      by_cases hii : i2 = i
      · exfalso
        rw [hii, hgl] at hl2
        have hll : l = l2 := Option.some.inj hl2
        rw [← hll] at hcp
        exact hne hcp
      · by_cases hlt : i2 < i
        · refine ⟨i2, l2, ?_, hcp⟩
          show (s.loops.eraseIdx i).get? i2 = some l2
          rw [get_eraseIdx_lt s.loops i i2 hlt]
          exact hl2
        · refine ⟨i2 - 1, l2, ?_, hcp⟩
          show (s.loops.eraseIdx i).get? (i2 - 1) = some l2
          rw [get_eraseIdx_ge s.loops i (i2 - 1) (by omega)]
          rw [show i2 - 1 + 1 = i2 from by omega]
          exact hl2
    · intro i2 l2 j hgl2 hcp
      have hgl3 : (s.loops.eraseIdx i).get? i2 = some l2 := hgl2
      show j < (killCurrent s.procs l.currentProcess).length
      rw [killCurrent_length]
      by_cases hlt : i2 < i
      · rw [get_eraseIdx_lt s.loops i i2 hlt] at hgl3
        exact hvalid i2 l2 j hgl3 hcp
      · rw [get_eraseIdx_ge s.loops i i2 (by omega)] at hgl3
        exact hvalid (i2 + 1) l2 j hgl3 hcp

/-- `handle_register_tag` with a falsy audio file changes nothing. -/
lemma register_empty (s : ServerState) (rr : Option String) (sk jk : Bool) :
    handle_register_tag s "" rr sk jk = (s, OpResult.err) := rfl

/-- `handle_register_tag` when the blocking tag read raises. -/
lemma register_readFail (s : ServerState) (audioFile : String) (sk jk : Bool)
    (hA : audioFile ≠ "") :
    handle_register_tag s audioFile none sk jk =
      ({ stopPlaybackThread s jk with led := false }, OpResult.err) := by
  unfold handle_register_tag
  rw [if_neg hA]

/-- `handle_register_tag` when saving the mapping raises: the insert is kept
in memory, the loop is not restarted, an error result is returned. -/
lemma register_saveFail (s : ServerState) (audioFile tagId : String) (jk : Bool)
    (hA : audioFile ≠ "") :
    handle_register_tag s audioFile (some tagId) false jk =
      ({ stopPlaybackThread s jk with
          led := false
          tagMapping :=
            insertTag (stopPlaybackThread s jk).tagMapping tagId audioFile },
        OpResult.err) := by
  unfold handle_register_tag
  rw [if_neg hA]
  rfl

/-- `handle_register_tag` on the success path. -/
lemma register_success (s : ServerState) (audioFile tagId : String) (jk : Bool)
    (hA : audioFile ≠ "") :
    handle_register_tag s audioFile (some tagId) true jk =
      (startPlaybackThread
        { stopPlaybackThread s jk with
            led := false
            tagMapping :=
              insertTag (stopPlaybackThread s jk).tagMapping tagId audioFile
            mappingFile :=
              insertTag (stopPlaybackThread s jk).tagMapping tagId audioFile },
        OpResult.ok) := by
  unfold handle_register_tag
  rw [if_neg hA]
  rfl

/-- `handle_register_tag` preserves the invariant. -/
lemma inv_register {s : ServerState} (hs : ServerInv s) (audioFile : String)
    (readResult : Option String) (saveOk joinOk : Bool) :
    ServerInv (handle_register_tag s audioFile readResult saveOk joinOk).1 := by
  by_cases hA : audioFile = ""
  · subst hA
    rw [register_empty]
    exact hs
  · cases readResult with
    | none =>
      rw [register_readFail s audioFile saveOk joinOk hA]
      exact inv_of_same_core (inv_stopPlaybackThread hs joinOk) rfl rfl rfl
    | some tagId =>
      cases saveOk with
      | false =>
        rw [register_saveFail s audioFile tagId joinOk hA]
        exact inv_of_same_core (inv_stopPlaybackThread hs joinOk) rfl rfl rfl
      | true =>
        rw [register_success s audioFile tagId joinOk hA]
        have hna := stopPlaybackThread_no_alive hs joinOk
        have htr := stopPlaybackThread_track hs joinOk
        obtain ⟨hown, hvalid, htrack⟩ := inv_stopPlaybackThread hs joinOk
        refine ⟨?_, ?_, ?_⟩
        · intro j hj
          have hj2 : aliveAt (stopPlaybackThread s joinOk).procs j = true := hj
          rw [hna j] at hj2
          cases hj2
        · intro i2 l2 j hgl hcp
          have hgl2 : (freshLoop :: (stopPlaybackThread s joinOk).loops).get? i2
              = some l2 := hgl
          show j < (stopPlaybackThread s joinOk).procs.length
          cases i2 with
          | zero =>
            have hfl : freshLoop = l2 := Option.some.inj hgl2
            rw [← hfl] at hcp
            have hcp2 : (none : Option Nat) = some j := hcp
            cases hcp2
          | succ k =>
            have hgl3 : (stopPlaybackThread s joinOk).loops.get? k = some l2 := hgl2
            exact hvalid k l2 j hgl3 hcp
        · intro h
          have h2 : (stopPlaybackThread s joinOk).currentTrack.isSome = true := h
          rw [htr] at h2
          cases h2

/-- `handle_unregister_tag` preserves the invariant. -/
lemma inv_unregister {s : ServerState} (hs : ServerInv s) (tagId : String)
    (saveOk : Bool) : ServerInv (handle_unregister_tag s tagId saveOk).1 := by
  unfold handle_unregister_tag
  split_ifs <;> exact inv_of_same_core hs rfl rfl rfl

/-- `handle_delete_file` preserves the invariant. -/
lemma inv_delete {s : ServerState} (hs : ServerInv s) (filename : String)
    (removeOk saveOk : Bool) :
    ServerInv (handle_delete_file s filename removeOk saveOk).1 := by
  obtain ⟨h1, h2, h3⟩ := hs
  have hcore : ∀ t : ServerState, t.procs = s.procs →
      t.loops = s.loops.map (freezeLoop s.tagMapping) →
      t.currentTrack = s.currentTrack → ServerInv t := by
    intro t hp hl ht
    refine ⟨?_, ?_, ?_⟩
    · intro j hj
      rw [hp] at hj
      obtain ⟨i2, l2, hl2, hcp⟩ := h1 j hj
      refine ⟨i2, freezeLoop s.tagMapping l2, ?_, ?_⟩
      · rw [hl, getq_map, hl2]
        rfl
      · rw [freezeLoop_currentProcess]
        exact hcp
    · intro i2 l2 j hgl hcp
      rw [hl, getq_map] at hgl
      rw [hp]
      cases horig : s.loops.get? i2 with
      | none =>
        rw [horig] at hgl
        cases hgl
      | some l3 =>
        rw [horig] at hgl
        have hl23 : freezeLoop s.tagMapping l3 = l2 := Option.some.inj hgl
        apply h2 i2 l3 j horig
        rw [← freezeLoop_currentProcess s.tagMapping l3, hl23]
        exact hcp
    · intro h
      rw [ht] at h
      rw [hp]
      exact h3 h
  unfold handle_delete_file
  split_ifs
  · exact ⟨h1, h2, h3⟩
  · exact hcore _ rfl rfl rfl
  · exact hcore _ rfl rfl rfl
  · exact ⟨h1, h2, h3⟩

/-- `handle_stop_playback` preserves the invariant. -/
lemma inv_stop_playback {s : ServerState} (hs : ServerInv s) :
    ServerInv (handle_stop_playback s) := by
  obtain ⟨h1, h2, h3⟩ := hs
  refine ⟨?_, ?_, fun h => Bool.noConfusion h⟩
  · intro j hj
    rw [show (handle_stop_playback s).procs = killAll s.procs from rfl,
      aliveAt_killAll] at hj
    cases hj
  · intro i2 l2 j hgl hcp
    have hgl2 : s.loops.get? i2 = some l2 := hgl
    show j < (killAll s.procs).length
    rw [killAll_length]
    exact h2 i2 l2 j hgl2 hcp

/-- Every step preserves the invariant. -/
lemma inv_step {s t : ServerState} (hs : ServerInv s) (h : Step s t) : ServerInv t := by
  cases h with
  | iter i l scan hl he => exact inv_loopIter hs i l scan hl
  | monitorStep i l j hl hj hm => exact inv_monitorFire hs i l j hl
  | loopExit i hi he => exact inv_finalizeLoop hs i
  | registerOp a r k jk => exact inv_register hs a r k jk
  | unregisterOp tg k => exact inv_unregister hs tg k
  | deleteOp f r k => exact inv_delete hs f r k
  | stopOp => exact inv_stop_playback hs

/-- The boot state satisfies the invariant. -/
lemma inv_initState (m0 : List (String × String)) : ServerInv (initState m0) := by
  refine ⟨?_, ?_, fun h => Bool.noConfusion h⟩
  · intro j hj
    rw [show (initState m0).procs = [] from rfl, aliveAt_nil] at hj
    cases hj
  · intro i2 l2 j hgl hcp
    have hgl2 : ([freshLoop] : List LoopState).get? i2 = some l2 := hgl
    cases i2 with
    | zero =>
      have hfl : freshLoop = l2 := Option.some.inj hgl2
      rw [← hfl] at hcp
      have hcp2 : (none : Option Nat) = some j := hcp
      cases hcp2
    | succ k =>
      have hgl3 : ([] : List LoopState).get? k = some l2 := hgl2
      rw [getq_nil] at hgl3
      cases hgl3

/-- The invariant holds in every reachable state. -/
lemma inv_reachable (m0 : List (String × String)) (s : ServerState)
    (h : Reachable m0 s) : ServerInv s := by
  induction h with
  | refl => exact inv_initState m0
  | tail hab hbc ih => exact inv_step ih hbc

/-- `_stop_playback_thread` never touches the persisted mapping file. -/
lemma stopPlaybackThread_mappingFile (s : ServerState) (joinOk : Bool) :
    (stopPlaybackThread s joinOk).mappingFile = s.mappingFile := by
  unfold stopPlaybackThread
  cases hlp : s.loops with
  | nil => rfl
  | cons l0 rest => cases joinOk <;> rfl

/-- `handle_unregister_tag` on a mapped tag with a successful save. -/
lemma unregister_present (s : ServerState) (tagId : String)
    (hne : tagId ≠ "") (hpres : (lookupTag s.tagMapping tagId).isSome = true) :
    handle_unregister_tag s tagId true =
      ({ s with
          tagMapping := eraseTag s.tagMapping tagId
          mappingFile := eraseTag s.tagMapping tagId }, OpResult.ok) := by
  unfold handle_unregister_tag
  rw [if_neg hne, if_pos hpres]
  rfl

/-- `handle_unregister_tag` on an unmapped tag. -/
lemma unregister_absent (s : ServerState) (tagId : String) (sk : Bool)
    (hne : tagId ≠ "") (habs : lookupTag s.tagMapping tagId = none) :
    handle_unregister_tag s tagId sk = (s, OpResult.err) := by
  unfold handle_unregister_tag
  rw [if_neg hne, if_neg (by simp [habs])]

/-- `handle_unregister_tag` on a mapped tag when saving raises: the deletion
survives in memory and the exception propagates. -/
lemma unregister_saveFail (s : ServerState) (tagId : String)
    (hne : tagId ≠ "") (hpres : (lookupTag s.tagMapping tagId).isSome = true) :
    handle_unregister_tag s tagId false =
      ({ s with tagMapping := eraseTag s.tagMapping tagId }, OpResult.exn) := by
  unfold handle_unregister_tag
  rw [if_neg hne, if_pos hpres]
  rfl

/-- `handle_delete_file` on the success path. -/
lemma delete_success (s : ServerState) (filename : String) (hne : filename ≠ "") :
    handle_delete_file s filename true true =
      ({ s with
          loops := s.loops.map (freezeLoop s.tagMapping)
          tagMapping := stripFile s.tagMapping filename
          mappingFile := stripFile s.tagMapping filename }, OpResult.ok) := by
  unfold handle_delete_file
  rw [if_neg hne]
  rfl

/-- `handle_delete_file` when saving raises: the strip survives in memory,
the file is unchanged, an error result is returned. -/
lemma delete_saveFail (s : ServerState) (filename : String) (hne : filename ≠ "") :
    handle_delete_file s filename true false =
      ({ s with
          loops := s.loops.map (freezeLoop s.tagMapping)
          tagMapping := stripFile s.tagMapping filename }, OpResult.err) := by
  unfold handle_delete_file
  rw [if_neg hne]
  rfl

/-- Scanning the mapped demonstration tag from the boot state (Scenario A). -/
lemma step01 : Step st0 st1 :=
  Step.iter st0 0 freshLoop (some "123456789012") rfl rfl

/-- Scanning an unknown tag while the song plays (Scenario B). -/
lemma step12 : Step st1 st2 :=
  Step.iter st1 0 l1 (some "000000000000") (by decide) (by decide)

/-- The boot state is reachable. -/
lemma reach0 : Reachable demoMap st0 := Relation.ReflTransGen.refl

/-- The playing state is reachable. -/
lemma reach1 : Reachable demoMap st1 := Relation.ReflTransGen.single step01

/-- The state after the unmapped scan is reachable. -/
lemma reach2 : Reachable demoMap st2 := Relation.ReflTransGen.tail reach1 step12

/-- A register whose bounded join times out, reviving the old loop. -/
lemma step03 : Step st0 st3 :=
  Step.registerOp st0 "other.mp3" (some "999") true false

/-- The revived loop (index 1) plays the first tag. -/
lemma step34 : Step st3 st4 :=
  Step.iter st3 1 freshLoop (some "123456789012") (by decide) (by decide)

/-- The new loop (index 0) plays the freshly registered tag. -/
lemma step45 : Step st4 st5 :=
  Step.iter st4 0 freshLoop (some "999") (by decide) (by decide)

/-- The double-loop state is reachable. -/
lemma reach3 : Reachable demoMap st3 := Relation.ReflTransGen.single step03

/-- One process playing under the revived loop is reachable. -/
lemma reach4 : Reachable demoMap st4 := Relation.ReflTransGen.tail reach3 step34

/-- Two simultaneously live player processes are reachable. -/
lemma reach5 : Reachable demoMap st5 := Relation.ReflTransGen.tail reach4 step45

/-- Claim C1, as stated: in every reachable state the shared `current_track`
cell is non-null if and only if a player process is alive.  Refuted: after
Scenario A plus an unmapped-tag scan, the `song.mp3` process is still alive
while `current_track` has been cleared by the unmapped-tag handling. -/
theorem c1_counterexample :
    ¬ (∀ (m0 : List (String × String)) (s : ServerState), Reachable m0 s →
        (s.currentTrack.isSome = true ↔ anyAlive s.procs = true)) := by
  intro h
  exact absurd (h demoMap st2 reach2) (by decide)

/-- Claim C1, amended: in every reachable state a non-null `current_track`
implies a live player process; the converse direction does not hold because
unmapped-tag handling clears the cell without stopping the process. -/
theorem c1_track_implies_alive (m0 : List (String × String)) (s : ServerState)
    (h : Reachable m0 s) (ht : s.currentTrack.isSome = true) :
    anyAlive s.procs = true :=
  (inv_reachable m0 s h).2.2 ht

/-- Witness for the amended C1 at the concrete playing state. -/
theorem c1_amended_witness : anyAlive st1.procs = true :=
  c1_track_implies_alive demoMap st1 reach1 (by decide)

/-- Claim C2, as stated: a mutation of the live mapping is never observed by
the running loop's tag resolution.  Refuted: the loop aliases the live dict,
so the in-place delete performed by `handle_unregister_tag` changes what the
running loop resolves, with no restart in between. -/
theorem c2_counterexample :
    ¬ (∀ (m0 : List (String × String)) (s : ServerState) (l : LoopState)
        (tagId tag : String), Reachable m0 s → s.loops.get? 0 = some l →
        resolveTag (handle_unregister_tag s tagId true).1 l tag
          = resolveTag s l tag) := by
  intro h
  have h2 := h demoMap st0 freshLoop "123456789012" "123456789012"
    Relation.ReflTransGen.refl (by decide)
  exact absurd h2 (by decide)

/-- Claim C2, amended: an unregistration delete is observed immediately by a
running aliased loop (and the loop is not restarted), while a file-deletion
strip is never observed by the running loop, because `handle_delete_file`
rebinds the global dict to a fresh object and does not restart the loop. -/
theorem c2_mutation_visibility (s : ServerState) (l : LoopState)
    (tagId filename tag : String) (hali : l.localAliased = true)
    (hne : tagId ≠ "") (hpres : (lookupTag s.tagMapping tagId).isSome = true)
    (hfn : filename ≠ "") :
    ((handle_unregister_tag s tagId true).1.loops = s.loops ∧
      resolveTag (handle_unregister_tag s tagId true).1 l tag
        = lookupTag (eraseTag s.tagMapping tagId) tag) ∧
    ((handle_delete_file s filename true true).1.loops
        = s.loops.map (freezeLoop s.tagMapping) ∧
      resolveTag (handle_delete_file s filename true true).1
          (freezeLoop s.tagMapping l) tag = resolveTag s l tag) := by
  rw [unregister_present s tagId hne hpres, delete_success s filename hfn]
  refine ⟨⟨rfl, ?_⟩, rfl, ?_⟩
  · simp [resolveTag, loopMapping, hali]
  · simp [resolveTag, loopMapping, freezeLoop, hali]

/-- Witness for the amended C2: after unregistering the demonstration tag
the running loop resolves it in the erased mapping. -/
theorem c2_amended_witness :
    resolveTag (handle_unregister_tag st0 "123456789012" true).1 freshLoop
        "123456789012"
      = lookupTag (eraseTag st0.tagMapping "123456789012") "123456789012" :=
  (c2_mutation_visibility st0 freshLoop "123456789012" "song.mp3" "123456789012"
    rfl (by decide) (by decide) (by decide)).1.2

/-- Claim C3, as stated: in every reachable state at most one player process
is alive, and a transitioning iteration kills every prior process before
spawning.  Refuted: a register whose bounded 2-second join times out — the
old loop is inside its 5-second startup sleep — leaves the old loop thread
alive, the restart's `stop_playback.clear()` revives it, and the two loops
then each spawn their own player process; in the reachable state `st5` the
processes at indices 0 and 1 are both alive. -/
theorem c3_counterexample :
    ¬ (∀ (m0 : List (String × String)) (s : ServerState), Reachable m0 s →
        AtMostOneAlive s ∧ SpawnKillsPrior s) := by
  intro h
  have h2 := (h demoMap st5 reach5).1 0 1 (by decide) (by decide)
  exact absurd h2 (by decide)

/-- Claim C3, amended: every live player process is the current process of
one of the running loops, so while a single loop runs — every state not
produced by a timed-out join — at most one process is alive; and a loop that
transitions to a new resolved track always terminates its own prior process
(joining its watcher inside the same iteration) before spawning the new one.
The global at-most-one bound holds only per loop: loops revived by a
timed-out join can each keep a live process. -/
theorem c3_per_loop_process (m0 : List (String × String)) (s : ServerState)
    (h : Reachable m0 s) :
    AliveOwnedByLoop s ∧ (s.loops.length ≤ 1 → AtMostOneAlive s) ∧
    SpawnKillsOwnPrior s := by
  obtain ⟨hown, hvalid, htrack⟩ := inv_reachable m0 s h
  refine ⟨hown, ?_, ?_⟩
  · intro hlen j1 j2 h1 h2
    obtain ⟨ia, la, hla, hca⟩ := hown j1 h1
    obtain ⟨ib, lb, hlb, hcb⟩ := hown j2 h2
    have hia : ia = 0 := by
      have := lt_of_getq_some hla
      omega
    have hib : ib = 0 := by
      have := lt_of_getq_some hlb
      omega
    rw [hia] at hla
    rw [hib] at hlb
    rw [hla] at hlb
    have hab : la = lb := Option.some.inj hlb
    rw [hab] at hca
    rw [hca] at hcb
    exact Option.some.inj hcb
  · intro i l tagId f jprev hl hres hf hc hcp
    have hlt : jprev < s.procs.length := hvalid i l jprev hl hcp
    rw [loopIter_spawn s i l tagId f hres hf hc]
    rw [show (spawnPlayback s i l f).procs =
        killCurrent s.procs l.currentProcess ++ [{ filename := f, alive := true }]
        from rfl,
      aliveAt_append_one]
    rw [if_neg (by rw [killCurrent_length]; omega)]
    rw [hcp]
    rw [show killCurrent s.procs (some jprev) = killProcAt s.procs jprev from rfl,
      aliveAt_killProcAt]
    simp

/-- Witness for the amended C3: the single-loop playing state keeps the
global at-most-one-process bound. -/
theorem c3_witness : AtMostOneAlive st1 :=
  (c3_per_loop_process demoMap st1 reach1).2.1 (by decide)

/-- Claim C4, as stated: unregistering a mapped tag removes the entry,
persists, returns success, and restarts the coordinator with the fresh
snapshot.  Refuted: the handler performs no restart, so the running loop
(which still records `song.mp3` as its current file) survives unchanged. -/
theorem c4_counterexample :
    ¬ (∀ (m0 : List (String × String)) (s : ServerState) (tagId : String),
        Reachable m0 s → tagId ≠ "" →
        (lookupTag s.tagMapping tagId).isSome = true →
        ((handle_unregister_tag s tagId true).1.tagMapping
            = eraseTag s.tagMapping tagId ∧
          (handle_unregister_tag s tagId true).1.mappingFile
            = eraseTag s.tagMapping tagId ∧
          (handle_unregister_tag s tagId true).2 = OpResult.ok ∧
          (handle_unregister_tag s tagId true).1.loops = [freshLoop])) := by
  intro h
  have h2 := (h demoMap st1 "123456789012" reach1 (by decide) (by decide)).2.2.2
  exact absurd h2 (by decide)

/-- Claim C4, amended: unregistering a mapped tag removes the entry, persists
it, and returns success while leaving everything else — in particular the
running loop — unchanged (no restart); unregistering an absent tag fails
with the not-found error and changes nothing. -/
theorem c4_unregister_no_restart (s : ServerState) (tagId : String)
    (hne : tagId ≠ "") :
    ((lookupTag s.tagMapping tagId).isSome = true →
      handle_unregister_tag s tagId true =
        ({ s with
            tagMapping := eraseTag s.tagMapping tagId
            mappingFile := eraseTag s.tagMapping tagId }, OpResult.ok)) ∧
    (lookupTag s.tagMapping tagId = none →
      handle_unregister_tag s tagId true = (s, OpResult.err)) :=
  ⟨fun hpres => unregister_present s tagId hne hpres,
    fun habs => unregister_absent s tagId true hne habs⟩

/-- Witness for the amended C4 at the boot state. -/
theorem c4_amended_witness :
    handle_unregister_tag st0 "123456789012" true =
      ({ st0 with
          tagMapping := eraseTag st0.tagMapping "123456789012"
          mappingFile := eraseTag st0.tagMapping "123456789012" }, OpResult.ok) :=
  (c4_unregister_no_restart st0 "123456789012" (by decide)).1 (by decide)

/-- Claim C5, as stated: starting the loop while an unstopped instance exists
fails and does not begin a second loop.  Refuted: `_start_playback_thread`
performs no check and spawns unconditionally, so a second concurrent loop
begins. -/
theorem c5_counterexample :
    ¬ (∀ (m0 : List (String × String)) (s : ServerState), Reachable m0 s →
        s.loops ≠ [] → s.stopEvent = false →
        (startPlaybackThread s).loops.length = s.loops.length) := by
  intro h
  have h2 := h demoMap st0 Relation.ReflTransGen.refl (by decide) rfl
  exact absurd h2 (by decide)

/-- Claim C5, amended: `_start_playback_thread` cannot fail and performs no
already-running check: it always prepends a fresh loop to whatever loops are
already running and clears the shared stop event, so starting while a loop
is alive yields two concurrently running loops. -/
theorem c5_start_unconditional (s : ServerState) :
    (startPlaybackThread s).loops = freshLoop :: s.loops ∧
    (startPlaybackThread s).stopEvent = false :=
  ⟨rfl, rfl⟩

/-- Claim C6, as stated: when persisting fails, the failure is surfaced, the
in-memory mapping is not left mutated, and no restart is issued.  Refuted:
after a failed save in `handle_register_tag` the in-memory mapping still
contains the freshly inserted entry. -/
theorem c6_counterexample :
    ¬ (∀ (m0 : List (String × String)) (s : ServerState)
        (audioFile tagId : String) (joinOk : Bool),
        Reachable m0 s → audioFile ≠ "" →
        ((handle_register_tag s audioFile (some tagId) false joinOk).2
            ≠ OpResult.ok ∧
          (handle_register_tag s audioFile (some tagId) false joinOk).1.tagMapping
            = s.tagMapping)) := by
  intro h
  have h2 := (h demoMap st0 "other.mp3" "999" true Relation.ReflTransGen.refl
    (by decide)).2
  exact absurd h2 (by decide)

/-- Claim C6, amended: when persisting fails the failure is surfaced
(an error result from register and delete, a propagated exception from
unregister), the persisted file is unchanged, and no restart is issued —
but in every case the in-memory mapping keeps the uncommitted mutation. -/
theorem c6_persist_failure (s : ServerState) (audioFile tagId filename : String)
    (joinOk : Bool) (hA : audioFile ≠ "") (hT : tagId ≠ "") (hF : filename ≠ "")
    (hpres : (lookupTag s.tagMapping tagId).isSome = true) :
    ((handle_register_tag s audioFile (some tagId) false joinOk).2
        = OpResult.err ∧
      (handle_register_tag s audioFile (some tagId) false joinOk).1.mappingFile
        = s.mappingFile ∧
      (handle_register_tag s audioFile (some tagId) false joinOk).1.loops
        = (stopPlaybackThread s joinOk).loops ∧
      (handle_register_tag s audioFile (some tagId) false joinOk).1.tagMapping
        = insertTag (stopPlaybackThread s joinOk).tagMapping tagId audioFile) ∧
    ((handle_unregister_tag s tagId false).2 = OpResult.exn ∧
      (handle_unregister_tag s tagId false).1.mappingFile = s.mappingFile ∧
      (handle_unregister_tag s tagId false).1.loops = s.loops ∧
      (handle_unregister_tag s tagId false).1.tagMapping
        = eraseTag s.tagMapping tagId) ∧
    ((handle_delete_file s filename true false).2 = OpResult.err ∧
      (handle_delete_file s filename true false).1.mappingFile = s.mappingFile ∧
      (handle_delete_file s filename true false).1.tagMapping
        = stripFile s.tagMapping filename) := by
  rw [register_saveFail s audioFile tagId joinOk hA,
    unregister_saveFail s tagId hT hpres, delete_saveFail s filename hF]
  exact ⟨⟨rfl, stopPlaybackThread_mappingFile s joinOk, rfl, rfl⟩,
    ⟨rfl, rfl, rfl, rfl⟩, ⟨rfl, rfl, rfl⟩⟩

/-- Witness for the amended C6: the failed-save register at the boot state
keeps the inserted entry in memory. -/
theorem c6_amended_witness :
    (handle_register_tag st0 "other.mp3" (some "123456789012")
        false true).1.tagMapping
      = insertTag (stopPlaybackThread st0 true).tagMapping "123456789012"
          "other.mp3" :=
  (c6_persist_failure st0 "other.mp3" "123456789012" "song.mp3" true (by decide)
    (by decide) (by decide) (by decide)).1.2.2.2

/-- Claim C7: `handle_stop_playback` always leaves `current_track` null, no
live player process, and the indicator off, while the loop threads and the
shared stop event — hence the polling loop itself — are untouched. -/
theorem c7_stop_playback (s : ServerState) :
    (handle_stop_playback s).currentTrack = none ∧
    anyAlive (handle_stop_playback s).procs = false ∧
    (handle_stop_playback s).led = false ∧
    (handle_stop_playback s).loops = s.loops ∧
    (handle_stop_playback s).stopEvent = s.stopEvent :=
  ⟨rfl, anyAlive_killAll s.procs, rfl, rfl, rfl⟩

/-- Claim C8: `_set_volume` clamps its argument to [0, 100], feeds a
deterministic remap of the clamped value to the mixer, and returns the
clamped (not the remapped) level; in particular 0 ↦ 0, 150 ↦ 100, 50 ↦ 50,
while the mixer value for 50 differs from the returned 50. -/
theorem c8_set_volume (level : Int) :
    (applySetVolume level).1 = clampVolume level ∧
    0 ≤ (applySetVolume level).1 ∧ (applySetVolume level).1 ≤ 100 ∧
    (applySetVolume level).2 = remapVolume (clampVolume level) ∧
    (applySetVolume 0).1 = 0 ∧ (applySetVolume 150).1 = 100 ∧
    (applySetVolume 50).1 = 50 ∧ remapVolume (clampVolume 50) ≠ (50 : Rat) := by
  refine ⟨rfl, ?_, ?_, rfl, by decide, by decide, by decide, ?_⟩
  · show (0 : Int) ≤ clampVolume level
    exact le_max_left 0 _
  · show clampVolume level ≤ 100
    exact max_le (by norm_num) (min_le_left 100 level)
  · have h50 : clampVolume 50 = 50 := by decide
    rw [h50]
    unfold remapVolume
    norm_num

/-- Claim C9: while a track is playing, a scan resolving to the file already
recorded as current is skipped: no spawn, and the state — track cell, process
list, indicator — is left entirely unchanged. -/
theorem c9_same_track (s : ServerState) (i : Nat) (l : LoopState) (tag f : String)
    (hl : s.loops.get? i = some l) (hres : resolveTag s l tag = some f)
    (hf : f ≠ "") (hcur : l.currentFile = some f)
    (hplay : anyAlive s.procs = true) :
    loopIter s i l (some tag) = s :=
  loopIter_same s i l tag f hres hf hcur

/-- Witness for C9 at the concrete playing state. -/
theorem c9_witness : loopIter st1 0 l1 (some "123456789012") = st1 :=
  c9_same_track st1 0 l1 "123456789012" "song.mp3" (by decide) (by decide)
    (by decide) (by decide) (by decide)

/-- Claim C10: neither `handle_stop_playback` nor a monitor completion clears
the loop's `current_file` record, so a later scan resolving to that same file
is still skipped (no new spawn, state unchanged); only a scan resolving to a
different file spawns again, and a restarted loop starts with no
`current_file`, making the old track playable. -/
theorem c10_current_file_retained (s : ServerState) (i : Nat) (l : LoopState)
    (tag f : String) (hl : s.loops.get? i = some l)
    (hcur : l.currentFile = some f) (hf : f ≠ "") :
    ((handle_stop_playback s).loops = s.loops) ∧
    (∀ j, (monitorFire s i l j).loops.get? i
        = some { l with monitorAlive := false }) ∧
    (resolveTag (handle_stop_playback s) l tag = some f →
      loopIter (handle_stop_playback s) i l (some tag) = handle_stop_playback s) ∧
    (∀ j, resolveTag (monitorFire s i l j) l tag = some f →
      loopIter (monitorFire s i l j) i l (some tag) = monitorFire s i l j) ∧
    (∀ g, resolveTag s l tag = some g → g ≠ "" → g ≠ f →
      (loopIter s i l (some tag)).procs.length = s.procs.length + 1) ∧
    freshLoop.currentFile = none := by
  refine ⟨rfl, ?_, ?_, ?_, ?_, rfl⟩
  · intro j
    exact get_set_self s.loops i _ l hl
  · intro hres
    exact loopIter_same _ i l tag f hres hf hcur
  · intro j hres
    exact loopIter_same _ i l tag f hres hf hcur
  · intro g hres hg hgf
    rw [loopIter_spawn s i l tag g hres hg
      (by rw [hcur]; intro hx; exact hgf (Option.some.inj hx).symm)]
    rw [show (spawnPlayback s i l g).procs =
        killCurrent s.procs l.currentProcess ++ [{ filename := g, alive := true }]
        from rfl,
      List.length_append, killCurrent_length]
    rfl

/-- Witness for C10: after stopping playback, rescanning the demonstration
tag leaves the state unchanged — no new process is spawned. -/
theorem c10_witness :
    loopIter (handle_stop_playback st1) 0 l1 (some "123456789012")
      = handle_stop_playback st1 :=
  (c10_current_file_retained st1 0 l1 "123456789012" "song.mp3" (by decide)
    (by decide) (by decide)).2.2.1 (by decide)
